import Mathlib

/-!
Verification of the Mafia ice-breaker system: a minimal publish/subscribe
broker (`broker.py`) and a game orchestrator (`publisher.py`).  Python
dictionaries are modelled as association lists (keys unique), Python sets as
duplicate-free lists, and the asyncio read/write loops as pure step
functions that return the successor state together with the observable
events (prints, cue requests, tap requests, phase-field assignments).
-/

/-! ### Characters used by the wire protocol model -/

def openBraceChar : Char := Char.ofNat 123

def closeBraceChar : Char := Char.ofNat 125

def quoteChar : Char := Char.ofNat 34

def backslashChar : Char := Char.ofNat 92

def slashChar : Char := Char.ofNat 47

def colonChar : Char := Char.ofNat 58

def commaChar : Char := Char.ofNat 44

def newlineChar : Char := Char.ofNat 10

/-- Whitespace characters accepted between JSON tokens. -/
def wsChar (c : Char) : Bool :=
  c = Char.ofNat 32 || c = newlineChar || c = Char.ofNat 9 || c = Char.ofNat 13

def skipWs : List Char → List Char
  | [] => []
  | c :: cs => if wsChar c then skipWs cs else c :: cs

/-- Inverse of a JSON string escape: the characters Python's `json` module
writes after a backslash.  `\uXXXX` escapes are outside this model (the
protocol's envelopes never contain them). -/
def unescapeChar (c : Char) : Option Char :=
  if c = quoteChar then some quoteChar
  else if c = backslashChar then some backslashChar
  else if c = slashChar then some slashChar
  else if c = Char.ofNat 110 then some newlineChar
  else if c = Char.ofNat 116 then some (Char.ofNat 9)
  else if c = Char.ofNat 114 then some (Char.ofNat 13)
  else if c = Char.ofNat 98 then some (Char.ofNat 8)
  else if c = Char.ofNat 102 then some (Char.ofNat 12)
  else none

/-- Parse the body of a JSON string (the opening quote already consumed);
returns the decoded characters and the input after the closing quote.
Fuel bounds the recursion by the input length. -/
def parseStringBody : Nat → List Char → Option (List Char × List Char)
  | 0, _ => none
  | _ + 1, [] => none
  | fuel + 1, c :: cs =>
    if c = quoteChar then some ([], cs)
    else if c = backslashChar then
      match cs with
      | [] => none
      | e :: cs2 =>
        match unescapeChar e, parseStringBody fuel cs2 with
        | some u, some (buf, rest) => some (u :: buf, rest)
        | _, _ => none
    else
      match parseStringBody fuel cs with
      | some (buf, rest) => some (c :: buf, rest)
      | none => none

/-- Parse the members of a JSON object whose values are strings (the grammar
of every envelope this protocol exchanges), positioned at the first key;
returns the members and the input after the closing brace. -/
def parseMembers : Nat → List Char → Option (List (String × String) × List Char)
  | 0, _ => none
  | fuel + 1, cs =>
    match cs with
    | [] => none
    | c :: cs1 =>
      if c = quoteChar then
        match parseStringBody cs1.length cs1 with
        | none => none
        | some (key, r1) =>
          match skipWs r1 with
          | [] => none
          | d :: r2 =>
            if d = colonChar then
              match skipWs r2 with
              | [] => none
              | q :: r3 =>
                if q = quoteChar then
                  match parseStringBody r3.length r3 with
                  | none => none
                  | some (val, r4) =>
                    match skipWs r4 with
                    | [] => none
                    | e :: r5 =>
                      if e = commaChar then
                        match parseMembers fuel (skipWs r5) with
                        | some (ms, rest) =>
                          some ((String.mk key, String.mk val) :: ms, rest)
                        | none => none
                      else if e = closeBraceChar then
                        some ([(String.mk key, String.mk val)], r5)
                      else none
                else none
            else none
      else none

/-- Model of Python's `json.loads` restricted to the flat string-valued
object grammar used by the protocol's envelopes: one JSON object, then only
whitespace to the end of the input.  Any leftover (non-whitespace) data
makes the whole decode fail, exactly as `json.loads` raises on extra data. -/
def jsonLoads (s : String) : Option (List (String × String)) :=
  match skipWs s.toList with
  | [] => none
  | c :: cs1 =>
    if c = openBraceChar then
      match skipWs cs1 with
      | [] => none
      | d :: cs2 =>
        if d = closeBraceChar then
          match skipWs cs2 with
          | [] => some []
          | _ :: _ => none
        else
          match parseMembers (d :: cs2).length (d :: cs2) with
          | some (ms, rest) =>
            match skipWs rest with
            | [] => some ms
            | _ :: _ => none
          | none => none
    else none

/-- First binding of key `k` among object members (envelope keys are never
duplicated on this protocol). -/
def lookupKey (ms : List (String × String)) (k : String) : Option String :=
  (ms.find? (fun m => m.1 == k)).map (fun m => m.2)

/-! ### `json.dumps` model (the serialising side of the protocol) -/

def jsonEscapeChar (c : Char) : List Char :=
  if c = quoteChar then [backslashChar, quoteChar]
  else if c = backslashChar then [backslashChar, backslashChar]
  else [c]

def jsonQuote (s : String) : String :=
  String.mk (quoteChar :: (s.toList.map jsonEscapeChar).flatten ++ [quoteChar])

/-- `json.dumps` of the broker's delivery object
`\x7b'topic': t, 'payload': p, 'sender': s\x7d` (`Broker.publish`). -/
def deliveryJson (topic payload sender : String) : String :=
  "\x7b" ++ jsonQuote ("topic") ++ ": " ++ jsonQuote topic ++ ", " ++
    jsonQuote ("payload") ++ ": " ++ jsonQuote payload ++ ", " ++
    jsonQuote ("sender") ++ ": " ++ jsonQuote sender ++ "\x7d"

/-- `json.dumps` of the tap payload built by `TapManager.send`. -/
def tapPayloadJson (pid taps : Nat) : String :=
  "\x7b" ++ jsonQuote ("id") ++ ": " ++ toString pid ++ ", " ++
    jsonQuote ("taps") ++ ": " ++ toString taps ++ "\x7d"

/-- The bytes `TapManager.send` writes to the wire: a bare `json.dumps` of
the publish envelope, with no trailing newline. -/
def clientPublishMessage (topic payload : String) : String :=
  "\x7b" ++ jsonQuote ("type") ++ ": " ++ jsonQuote ("publish") ++ ", " ++
    jsonQuote ("topic") ++ ": " ++ jsonQuote topic ++ ", " ++
    jsonQuote ("payload") ++ ": " ++ jsonQuote payload ++ "\x7d"

/-- The bytes `MafiaGame._connect` writes for its subscription: a bare
`json.dumps` of the subscribe envelope, with no trailing newline. -/
def clientSubscribeMessage (topic : String) : String :=
  "\x7b" ++ jsonQuote ("type") ++ ": " ++ jsonQuote ("subscribe") ++ ", " ++
    jsonQuote ("topic") ++ ": " ++ jsonQuote topic ++ "\x7d"

/-! ### Broker state (`broker.py`) -/

/-- Broker state: `clients` models the keys of `self.clients` (the sessions
whose connection is live) and `subscriptions` models the dict
`self.subscriptions` mapping a topic to the set of subscribed session ids
(a duplicate-free list). -/
structure Broker where
  clients : List String
  subscriptions : List (String × List String)
deriving DecidableEq

/-- Dict lookup `self.subscriptions[topic]` (with the `topic in
self.subscriptions` test folded in as `none`). -/
def subsFind (subs : List (String × List String)) (topic : String) :
    Option (List String) :=
  (subs.find? (fun e => e.1 == topic)).map (fun e => e.2)

/-- The registered ids for a topic; a topic absent from the dict has none. -/
def subsOf (b : Broker) (topic : String) : List String :=
  (subsFind b.subscriptions topic).getD []

/-- `subscribe` handling: create the topic's entry if absent, then add the
session id to the topic's set (a set add: no duplicate is created). -/
def Broker.addSub (b : Broker) (topic cid : String) : Broker :=
  match subsFind b.subscriptions topic with
  | none => { b with subscriptions := b.subscriptions ++ [(topic, [cid])] }
  | some _ =>
    { b with subscriptions :=
        b.subscriptions.map (fun e =>
          if e.1 == topic then
            (e.1, if e.2.contains cid then e.2 else e.2 ++ [cid])
          else e) }

/-- `Broker.publish`: if the topic has an entry, write the newline-terminated
delivery to every registered session that is still in `self.clients`.
Returns the (recipient, wire bytes) pairs in registry order. -/
def Broker.publish (b : Broker) (topic payload sender : String) :
    List (String × String) :=
  match subsFind b.subscriptions topic with
  | none => []
  | some ids =>
    (ids.filter (fun c => b.clients.contains c)).map
      (fun c => (c, deliveryJson topic payload sender ++ "\n"))

/-- The `finally` block of `Broker.handle_client`: delete the session from
`self.clients` (dict key removal) and `discard` its id from every topic's
subscriber set. -/
def Broker.onDisconnect (b : Broker) (cid : String) : Broker :=
  { clients := b.clients.filter (fun x => !(x == cid)),
    subscriptions :=
      b.subscriptions.map (fun e => (e.1, e.2.filter (fun x => !(x == cid)))) }

/-- One iteration of `Broker.handle_client`'s read loop on the data of one
`reader.read`: decode the chunk with `json.loads`; on a decode error (or a
missing mandatory key, a `KeyError`) the exception is caught and the
`finally` cleanup runs, ending the session (`false`).  Returns the next
broker state, the deliveries fanned out, and whether the session's loop
continues. -/
def Broker.handleData (b : Broker) (cid data : String) :
    Broker × List (String × String) × Bool :=
  match jsonLoads data with
  | none => (b.onDisconnect cid, [], false)
  | some ms =>
    match lookupKey ms ("type") with
    | none => (b.onDisconnect cid, [], false)
    | some ty =>
      if ty = "subscribe" then
        match lookupKey ms ("topic") with
        | none => (b.onDisconnect cid, [], false)
        | some t => (b.addSub t cid, [], true)
      else if ty = "publish" then
        match lookupKey ms ("topic"), lookupKey ms ("payload") with
        | some t, some p => (b, b.publish t p cid, true)
        | _, _ => (b.onDisconnect cid, [], false)
      else (b, [], true)

/-- `Broker.publish` with the possibility that `writer.write`/`drain` raises
for the sessions in `failing`: the loop has no per-subscriber exception
handling, so the first failing write aborts the whole fan-out and the
exception propagates (`true` in the second component). -/
def fanoutLoop (clients failing : List String) (msg : String) :
    List String → List (String × String) × Bool
  | [] => ([], false)
  | c :: rest =>
    if clients.contains c then
      if failing.contains c then ([], true)
      else
        let r := fanoutLoop clients failing msg rest
        ((c, msg) :: r.1, r.2)
    else fanoutLoop clients failing msg rest

/-- `Broker.publish` under write failures: same iteration as
`Broker.publish`, with `fanoutLoop` making the write outcome explicit. -/
def Broker.publishFail (b : Broker) (topic payload sender : String)
    (failing : List String) : List (String × String) × Bool :=
  match subsFind b.subscriptions topic with
  | none => ([], false)
  | some ids =>
    fanoutLoop b.clients failing (deliveryJson topic payload sender ++ "\n") ids

/-! ### Game data model (`publisher.py`) -/

/-- `Role` enum. -/
inductive Role where
  | TOWNFOLK
  | MAFIA
  | DOCTOR
  | DETECTIVE
deriving DecidableEq

/-- `Phase` enum. -/
inductive Phase where
  | DAY
  | NIGHT_MAFIA
  | NIGHT_DOCTOR
  | NIGHT_DETECTIVE
deriving DecidableEq

/-- The `Player` dataclass. -/
structure Player where
  id : Nat
  role : Role
  alive : Bool
deriving DecidableEq

/-- The `GameState` dataclass; `players` models the dict `id -> Player` as a
list in id order. -/
structure GameState where
  players : List Player
  phase : Phase
  pending_kill_id : Option Nat
  pending_save_id : Option Nat
deriving DecidableEq

/-- Observable events of one orchestrator operation: console prints,
`SoundManager.play` cue requests, `TapManager.send` tap requests, and the
assignments to `self.state.phase` in the order the code performs them. -/
inductive Ev where
  | out (s : String)
  | cue (k : String)
  | tap (pid taps : Nat)
  | phaseSet (p : Phase)
deriving DecidableEq

/-- `TapManager.ROLE_TAPS`. -/
def ROLE_TAPS : Role → Nat
  | Role.TOWNFOLK => 1
  | Role.MAFIA => 2
  | Role.DOCTOR => 3
  | Role.DETECTIVE => 4

/-- `MafiaGame.PLAYER_COUNT`. -/
def PLAYER_COUNT : Nat := 4

/-- `MafiaGame._get_player` (`self.state.players.get(player_id)`). -/
def getPlayer (s : GameState) (pid : Nat) : Option Player :=
  s.players.find? (fun p => p.id == pid)

/-- `MafiaGame._get_alive_player`. -/
def getAlivePlayer (s : GameState) (pid : Nat) : Option Player :=
  match getPlayer s pid with
  | some p => if p.alive then some p else none
  | none => none

/-- `MafiaGame._is_role_alive`. -/
def isRoleAlive (s : GameState) (r : Role) : Bool :=
  s.players.any (fun p => p.alive && p.role == r)

/-- `TapManager.send_to_all_alive` as dispatch requests. -/
def tapsToAllAlive (players : List Player) (n : Nat) : List Ev :=
  (players.filter (fun p => p.alive)).map (fun p => Ev.tap p.id n)

/-- `TapManager.send_to_role` as dispatch requests. -/
def tapsToRole (players : List Player) (r : Role) (n : Nat) : List Ev :=
  (players.filter (fun p => p.alive && p.role == r)).map (fun p => Ev.tap p.id n)

/-- `victim.alive = False` on the dict-held `Player` object: the player with
that id is marked dead, every other player is untouched. -/
def killVictim (players : List Player) (pid : Nat) : List Player :=
  players.map (fun p => if p.id == pid then { p with alive := false } else p)

/-- `MafiaGame._check_win_condition`: the announcements it prints (it reads
the state and prints; it performs no mutation). -/
def checkWinCondition (s : GameState) : List String :=
  let mafia_alive := (s.players.filter (fun p => p.alive && p.role == Role.MAFIA)).length
  let town_alive := (s.players.filter (fun p => p.alive && !(p.role == Role.MAFIA))).length
  if mafia_alive = 0 then ["TOWN WINS! All mafia have been eliminated!"]
  else if mafia_alive ≥ town_alive then ["MAFIA WINS! They have taken over the town!"]
  else []

/-- `MafiaGame._wake_everyone`. -/
def wakeEveryone (s : GameState) : GameState × List Ev :=
  let s1 := { s with phase := Phase.DAY }
  (s1, [Ev.phaseSet Phase.DAY, Ev.out ("Daytime"), Ev.cue ("wake"),
        Ev.cue ("everyone")] ++ tapsToAllAlive s1.players 2)

/-- `MafiaGame._end_night`: detective-sleep cue if the detective is alive,
kill/save resolution, clearing of both pending fields, `_wake_everyone`
(which assigns `phase = DAY`), then `_check_win_condition`. -/
def endNight (s : GameState) : GameState × List Ev :=
  let detEvs : List Ev :=
    if isRoleAlive s Role.DETECTIVE then
      [Ev.out ("Detective goes to sleep."), Ev.cue ("sleep"), Ev.cue ("detective")]
    else []
  let res : GameState × List Ev :=
    match s.pending_kill_id with
    | none => (s, [])
    | some k =>
      match getPlayer s k with
      | none => (s, [])
      | some victim =>
        if victim.alive then
          if s.pending_save_id = s.pending_kill_id then
            (s, [Ev.out ("Player " ++ toString victim.id ++ " was saved by the doctor."),
                 Ev.cue ("protection")])
          else
            ({ s with players := killVictim s.players k },
             [Ev.out ("Player " ++ toString victim.id ++ " was killed."),
              Ev.cue ("lynch"), Ev.cue ("everyone"), Ev.tap victim.id 1])
        else (s, [])
  let s2 := { res.1 with pending_kill_id := none, pending_save_id := none }
  let w := wakeEveryone s2
  (w.1, detEvs ++ res.2 ++ w.2 ++ (checkWinCondition w.1).map Ev.out)

/-- `MafiaGame._sleep_and_wake_detective`: doctor-sleep cue if the doctor is
alive, assign `phase = NIGHT_DETECTIVE`, then either cascade straight into
`_end_night` (detective dead) or wake the detective. -/
def sleepAndWakeDetective (s : GameState) : GameState × List Ev :=
  let docEvs : List Ev :=
    if isRoleAlive s Role.DOCTOR then
      [Ev.out ("Doctor goes to sleep."), Ev.cue ("sleep"), Ev.cue ("doctor")]
    else []
  let s1 := { s with phase := Phase.NIGHT_DETECTIVE }
  if !(isRoleAlive s1 Role.DETECTIVE) then
    let r := endNight s1
    (r.1, docEvs ++ [Ev.phaseSet Phase.NIGHT_DETECTIVE,
                     Ev.out ("Detective is dead. Skip")] ++ r.2)
  else
    (s1, docEvs ++ [Ev.phaseSet Phase.NIGHT_DETECTIVE,
                    Ev.out ("Detective wakes up."), Ev.cue ("wake"),
                    Ev.cue ("detective")] ++ tapsToRole s1.players Role.DETECTIVE 2)

/-- `MafiaGame._sleep_and_wake_doctor`: mafia-sleep cue if the mafia is
alive, assign `phase = NIGHT_DOCTOR`, then either cascade into
`_sleep_and_wake_detective` (doctor dead) or wake the doctor. -/
def sleepAndWakeDoctor (s : GameState) : GameState × List Ev :=
  let mafEvs : List Ev :=
    if isRoleAlive s Role.MAFIA then
      [Ev.out ("Mafia goes to sleep"), Ev.cue ("sleep"), Ev.cue ("mafia")]
    else []
  let s1 := { s with phase := Phase.NIGHT_DOCTOR }
  if !(isRoleAlive s1 Role.DOCTOR) then
    let r := sleepAndWakeDetective s1
    (r.1, mafEvs ++ [Ev.phaseSet Phase.NIGHT_DOCTOR,
                     Ev.out ("Doctor is dead. Skip.")] ++ r.2)
  else
    (s1, mafEvs ++ [Ev.phaseSet Phase.NIGHT_DOCTOR, Ev.out ("Doctor wakes up."),
                    Ev.cue ("wake"), Ev.cue ("doctor")] ++
          tapsToRole s1.players Role.DOCTOR 2 ++
          [Ev.out ("Use save X to protect someone, then next.")])

/-- `MafiaGame._wake_mafia`. -/
def wakeMafia (s : GameState) : GameState × List Ev :=
  let s1 := { s with phase := Phase.NIGHT_MAFIA }
  (s1, [Ev.phaseSet Phase.NIGHT_MAFIA, Ev.out ("Mafia wakes up"),
        Ev.cue ("wake"), Ev.cue ("mafia")] ++ tapsToRole s1.players Role.MAFIA 2)

/-- `MafiaGame._start_night`: clear both pending fields, play the night
cues, then `_wake_mafia`. -/
def startNight (s : GameState) : GameState × List Ev :=
  let s1 := { s with pending_kill_id := none, pending_save_id := none }
  let evs1 := [Ev.out ("Night phase"), Ev.cue ("sleep"), Ev.cue ("everyone")] ++
    tapsToAllAlive s1.players 2
  let r := wakeMafia s1
  (r.1, evs1 ++ r.2)

/-- `MafiaGame.next_phase`. -/
def nextPhase (s : GameState) : GameState × List Ev :=
  match s.phase with
  | Phase.DAY => startNight s
  | Phase.NIGHT_MAFIA => sleepAndWakeDoctor s
  | Phase.NIGHT_DOCTOR => sleepAndWakeDetective s
  | Phase.NIGHT_DETECTIVE => endNight s

/-- `MafiaGame._lynch` (no phase assignment). -/
def lynch (s : GameState) (target : Player) : GameState × List Ev :=
  let s1 := { s with players := killVictim s.players target.id }
  let revealEvs : List Ev :=
    if target.role == Role.MAFIA then
      [Ev.out ("They were the mafia!"), Ev.cue ("mafia")]
    else
      [Ev.out ("They were the " ++ "other role" ++ "."), Ev.cue ("everyone")]
  (s1, [Ev.out ("Player " ++ toString target.id ++ " has been lynched."),
        Ev.cue ("lynch")] ++ revealEvs ++ (checkWinCondition s1).map Ev.out)

/-- `MafiaGame.kill_player`: invalid/dead target is a diagnosed no-op; DAY
lynches immediately; NIGHT_MAFIA records the pending kill, taps the mafia
and auto-advances; any other phase falls through silently. -/
def killPlayer (s : GameState) (pid : Nat) : GameState × List Ev :=
  match getAlivePlayer s pid with
  | none => (s, [Ev.out ("Player " ++ toString pid ++ " is not a valid target.")])
  | some target =>
    if s.phase = Phase.DAY then lynch s target
    else if s.phase = Phase.NIGHT_MAFIA then
      let s1 := { s with pending_kill_id := some pid }
      let evs1 := [Ev.out ("Mafia targets player " ++ toString pid ++ ".")] ++
        tapsToRole s1.players Role.MAFIA 2
      let r := nextPhase s1
      (r.1, evs1 ++ r.2)
    else (s, [])

/-- `MafiaGame.save_player`: wrong phase or invalid target is a diagnosed
no-op; otherwise record the pending save, tap the doctor, auto-advance. -/
def savePlayer (s : GameState) (pid : Nat) : GameState × List Ev :=
  if s.phase ≠ Phase.NIGHT_DOCTOR then
    (s, [Ev.out ("Saves can only happen during doctors turn!")])
  else
    match getAlivePlayer s pid with
    | none => (s, [Ev.out ("Player " ++ toString pid ++ " is not a valid target.")])
    | some _ =>
      let s1 := { s with pending_save_id := some pid }
      let evs1 := [Ev.out ("Doctor will protect player " ++ toString pid ++ ".")] ++
        tapsToRole s1.players Role.DOCTOR 2
      let r := nextPhase s1
      (r.1, evs1 ++ r.2)

/-- `MafiaGame.check_player`: wrong phase or invalid target is a diagnosed
no-op; otherwise play the hint cue, report the result, tap the detective,
auto-advance (into resolution). -/
def checkPlayer (s : GameState) (pid : Nat) : GameState × List Ev :=
  if s.phase ≠ Phase.NIGHT_DETECTIVE then
    (s, [Ev.out ("Checks can only happen during detectives turn!")])
  else
    match getAlivePlayer s pid with
    | none => (s, [Ev.out ("Player " ++ toString pid ++ " is not a valid target.")])
    | some target =>
      let resultMsg :=
        if target.role == Role.MAFIA then "Player " ++ toString pid ++ " is Mafia."
        else "Player " ++ toString pid ++ " is not mafia"
      let evs1 := [Ev.cue ("hint"), Ev.out (resultMsg)] ++
        tapsToRole s.players Role.DETECTIVE 2
      let r := nextPhase s
      (r.1, evs1 ++ r.2)

/-- `MafiaGame._initialize_players` with the shuffled role list made an
explicit argument (the model of `random.shuffle`): rebuild the four
players alive with roles in shuffled order, assign `phase = DAY`, clear
both pending fields, and print each assignment. -/
def initializePlayers (roles : List Role) (_s : GameState) : GameState × List Ev :=
  let players := (List.range PLAYER_COUNT).map
    (fun i => { id := i + 1, role := roles.getD i Role.TOWNFOLK, alive := true : Player })
  ({ players := players, phase := Phase.DAY,
     pending_kill_id := none, pending_save_id := none },
   [Ev.phaseSet Phase.DAY] ++
     players.map (fun p => Ev.out ("Wristband " ++ toString p.id)))

/-- Mode flags of `MafiaGame` together with the enable switches of its
`SoundManager` and `TapManager`. -/
structure ModeState where
  only_sound : Bool
  only_taps : Bool
  sound_enabled : Bool
  taps_enabled : Bool
deriving DecidableEq

/-- `TapManager.send` at the wire level: forwards the tap publish only when
the manager is enabled. -/
def tapSend (enabled : Bool) (pid taps : Nat) : List (Nat × Nat) :=
  if enabled then [(pid, taps)] else []

/-- `TapManager.distribute_roles`: each player is sent its role's tap code. -/
def distributeRoles (enabled : Bool) (players : List Player) : List (Nat × Nat) :=
  (players.map (fun p => tapSend enabled p.id (ROLE_TAPS p.role))).flatten

/-- `MafiaGame.reset_game`: reinitialize the players, then distribute role
taps with `taps.enabled` forced to `True` and restored afterwards (so the
mode flags come out unchanged). -/
def resetGame (roles : List Role) (m : ModeState) (s : GameState) :
    ModeState × GameState × List (Nat × Nat) :=
  let s1 := (initializePlayers roles s).1
  (m, s1, distributeRoles true s1.players)

/-- `MafiaGame.switch_mode`: the three recognized modes reconfigure the four
flags; any other mode string changes no flag; every call then runs
`reset_game`. -/
def switchMode (roles : List Role) (mode : String) (m : ModeState) (s : GameState) :
    ModeState × GameState × List (Nat × Nat) :=
  let m1 :=
    if mode = "taps" then
      { only_sound := false, only_taps := true,
        sound_enabled := false, taps_enabled := true : ModeState }
    else if mode = "sounds" then
      { only_sound := true, only_taps := false,
        sound_enabled := true, taps_enabled := false : ModeState }
    else if mode = "all" then
      { only_sound := false, only_taps := false,
        sound_enabled := true, taps_enabled := true : ModeState }
    else m
  resetGame roles m1 s

/-- Parsed operator commands of `MafiaGame._handle_command`. -/
inductive Cmd where
  | next
  | kill (pid : Nat)
  | save (pid : Nat)
  | check (pid : Nat)
  | repeatRoles (pid : Option Nat)
  | reset
  | switchMode (mode : String)
  | quit
  | unknown (w : String)
deriving DecidableEq

/-- `MafiaGame._handle_command` on the game state, with the shuffled role
list for `reset`/`switch` made explicit; returns the next state, the events,
and the loop-continuation flag (`False` only for `quit`). -/
def handleCommand (roles : List Role) (s : GameState) :
    Cmd → GameState × List Ev × Bool
  | Cmd.quit => (s, [], false)
  | Cmd.next =>
    let r := nextPhase s
    (r.1, r.2, true)
  | Cmd.kill pid =>
    let r := killPlayer s pid
    (r.1, r.2, true)
  | Cmd.save pid =>
    let r := savePlayer s pid
    (r.1, r.2, true)
  | Cmd.check pid =>
    let r := checkPlayer s pid
    (r.1, r.2, true)
  | Cmd.repeatRoles (some pid) =>
    match getPlayer s pid with
    | none => (s, [Ev.out ("Player " ++ toString pid ++ " not found.")], true)
    | some p => (s, [Ev.out ("Repeating role to player " ++ toString pid ++ "..."),
                     Ev.tap p.id (ROLE_TAPS p.role)], true)
  | Cmd.repeatRoles none =>
    (s, [Ev.out ("Repeating roles to all players...")] ++
          s.players.map (fun p => Ev.tap p.id (ROLE_TAPS p.role)), true)
  | Cmd.reset =>
    let r := initializePlayers roles s
    (r.1, r.2 ++ (distributeRoles true r.1.players).map (fun t => Ev.tap t.1 t.2), true)
  | Cmd.switchMode _ =>
    let r := initializePlayers roles s
    (r.1, r.2 ++ (distributeRoles true r.1.players).map (fun t => Ev.tap t.1 t.2), true)
  | Cmd.unknown w =>
    (s, [Ev.out ("Unknown command: " ++ w ++ ". Type help for commands.")], true)

/-! ### Phase-assignment traces -/

/-- The phase value of a `phaseSet` event. -/
def evPhase : Ev → Option Phase
  | Ev.phaseSet p => some p
  | _ => none

/-- The sequence of assignments to `state.phase` among a list of events. -/
def phaseWrites (evs : List Ev) : List Phase :=
  evs.filterMap evPhase

/-- Successor in the strict phase cycle
DAY → NIGHT_MAFIA → NIGHT_DOCTOR → NIGHT_DETECTIVE → DAY. -/
def cycleNext : Phase → Phase
  | Phase.DAY => Phase.NIGHT_MAFIA
  | Phase.NIGHT_MAFIA => Phase.NIGHT_DOCTOR
  | Phase.NIGHT_DOCTOR => Phase.NIGHT_DETECTIVE
  | Phase.NIGHT_DETECTIVE => Phase.DAY

/-- `chainFrom p ws` holds when the write sequence `ws`, started from the
current phase `p`, steps along the cycle without skipping a phase. -/
def chainFrom (p : Phase) : List Phase → Bool
  | [] => true
  | q :: qs => if q = cycleNext p then chainFrom q qs else false

/-- The role list `[MAFIA, DOCTOR, DETECTIVE, TOWNFOLK]` before shuffling
(`MafiaGame._initialize_players`). -/
def baseRoles : List Role :=
  [Role.MAFIA, Role.DOCTOR, Role.DETECTIVE, Role.TOWNFOLK]

/-! ### Concrete fixtures for witnesses and counterexamples -/

/-- A broker with two live sessions both subscribed to `mafia`
(`client_1` is therefore self-subscribed when it publishes). -/
def bW1 : Broker :=
  { clients := ["client_1", "client_2"],
    subscriptions := [("mafia", ["client_1", "client_2"])] }

/-- A broker with two live sessions and two topics. -/
def bW5 : Broker :=
  { clients := ["client_1", "client_2"],
    subscriptions := [("mafia", ["client_1", "client_2"]), ("news", ["client_2"])] }

/-- A broker where `client_1` publishes to the topic `mafia` whose
subscribers are `client_2` and `client_3`, in that iteration order. -/
def bC6 : Broker :=
  { clients := ["client_1", "client_2", "client_3"],
    subscriptions := [("mafia", ["client_2", "client_3"])] }

/-- The orchestrator's state before `_initialize_players` has run. -/
def gsEmpty : GameState :=
  { players := [], phase := Phase.DAY,
    pending_kill_id := none, pending_save_id := none }

/-- The state right after start-up initialization (roles in base order). -/
def gsInit : GameState := (initializePlayers baseRoles gsEmpty).1

/-- The state reached from `gsInit` by the operator command `next`:
its phase is `NIGHT_MAFIA`. -/
def gsNight : GameState := (handleCommand baseRoles gsInit Cmd.next).1

/-- Four alive players during the doctor's night. -/
def sC7 : GameState :=
  { players := [{ id := 1, role := Role.MAFIA, alive := true },
                { id := 2, role := Role.DOCTOR, alive := true },
                { id := 3, role := Role.DETECTIVE, alive := true },
                { id := 4, role := Role.TOWNFOLK, alive := true }],
    phase := Phase.NIGHT_DOCTOR,
    pending_kill_id := none, pending_save_id := none }

/-- Night resolution input where the doctor saved the mafia's target. -/
def sC2save : GameState :=
  { players := [{ id := 1, role := Role.MAFIA, alive := true },
                { id := 2, role := Role.DOCTOR, alive := true },
                { id := 3, role := Role.DETECTIVE, alive := true },
                { id := 4, role := Role.TOWNFOLK, alive := true }],
    phase := Phase.NIGHT_DETECTIVE,
    pending_kill_id := some 2, pending_save_id := some 2 }

/-- Night resolution input where the save missed the mafia's target. -/
def sC2kill : GameState :=
  { players := [{ id := 1, role := Role.MAFIA, alive := true },
                { id := 2, role := Role.DOCTOR, alive := true },
                { id := 3, role := Role.DETECTIVE, alive := true },
                { id := 4, role := Role.TOWNFOLK, alive := true }],
    phase := Phase.NIGHT_DETECTIVE,
    pending_kill_id := some 4, pending_save_id := some 2 }

/-- A shuffled role order used by the reset witnesses. -/
def wRoles : List Role :=
  [Role.DOCTOR, Role.MAFIA, Role.TOWNFOLK, Role.DETECTIVE]

/-- A mode-flag configuration (taps-only). -/
def wMode : ModeState :=
  { only_sound := false, only_taps := true,
    sound_enabled := false, taps_enabled := true }

/-! ### Helper lemmas -/

/-- Counting copies in a fan-out: iterating a duplicate-free registry entry
and writing once to each still-live id delivers exactly one copy to each
live registered id and none to anyone else. -/
theorem fanout_count (ids clients : List String) (msg c : String)
    (h : ids.Nodup) :
    (((ids.filter (fun x => clients.contains x)).map (fun x => (x, msg))).filter
        (fun d => d.1 == c)).length =
      if c ∈ ids ∧ c ∈ clients then 1 else 0 := by
  induction ids with
  | nil => simp
  | cons a t ih =>
    rw [List.nodup_cons] at h
    have iht := ih h.2
    by_cases hcl : clients.contains a
    · by_cases hac : a = c
      · subst hac
        have hmem : a ∈ clients := List.elem_iff.mp hcl
        have hrest : ((t.filter (fun x => clients.contains x)).map
            (fun x => (x, msg))).filter (fun d => d.1 == a) = [] := by
          rw [List.filter_eq_nil_iff]
          intro d hd
          simp only [List.mem_map, List.mem_filter] at hd
          obtain ⟨x, ⟨hx, _⟩, rfl⟩ := hd
          intro hxa
          rw [beq_iff_eq] at hxa
          exact h.1 (hxa ▸ hx)
        rw [List.filter_cons, if_pos hcl, List.map_cons, List.filter_cons]
        simp only [beq_self_eq_true, if_true, List.length_cons, hrest,
          List.length_nil]
        rw [if_pos ⟨List.mem_cons_self a t, hmem⟩]
      · have hiff : (c ∈ a :: t ∧ c ∈ clients) ↔ (c ∈ t ∧ c ∈ clients) := by
          constructor
          · rintro ⟨hc, hcl2⟩
            rcases List.mem_cons.mp hc with rfl | hct
            · exact (hac rfl).elim
            · exact ⟨hct, hcl2⟩
          · rintro ⟨hc, hcl2⟩
            exact ⟨List.mem_cons_of_mem _ hc, hcl2⟩
        rw [List.filter_cons, if_pos hcl, List.map_cons, List.filter_cons]
        have hb : (((a, msg)).1 == c) = false := by
          simp only [beq_eq_false_iff_ne, ne_eq]
          exact hac
        rw [hb]
        simp only [Bool.false_eq_true, if_false, iht]
        exact (if_congr hiff rfl rfl).symm
    · have hiff : (c ∈ a :: t ∧ c ∈ clients) ↔ (c ∈ t ∧ c ∈ clients) := by
        constructor
        · rintro ⟨hc, hcl2⟩
          rcases List.mem_cons.mp hc with rfl | hct
          · exact (hcl (List.elem_iff.mpr hcl2)).elim
          · exact ⟨hct, hcl2⟩
        · rintro ⟨hc, hcl2⟩
          exact ⟨List.mem_cons_of_mem _ hc, hcl2⟩
      rw [List.filter_cons, if_neg hcl, iht]
      exact (if_congr hiff rfl rfl).symm

/-- `subsFind` over a per-topic transformation of the registry. -/
theorem subsFind_map_snd (l : List (String × List String))
    (f : List String → List String) (t : String) :
    subsFind (l.map (fun e => (e.1, f e.2))) t = (subsFind l t).map f := by
  induction l with
  | nil => rfl
  | cons a tl ih =>
    by_cases h : a.1 == t
    · simp [subsFind, List.find?_cons, h]
    · simp only [subsFind, List.map_cons, List.find?_cons, h] at ih ⊢
      exact ih

/-! ### C1: publish fan-out delivers exactly once to live subscribers -/

/-- C1 (confirmed). For every publish of payload `P` to topic `T`, every
session id registered for `T` whose session is live receives exactly one
copy — the newline-terminated delivery JSON carrying `T`, `P` and the
publisher's session id (the sender included if self-subscribed, since no id
is excluded) — and a session not registered for `T` (or not live) receives
none. -/
theorem mafia_c1 (b : Broker) (T P S c : String) (h : (subsOf b T).Nodup) :
    (((b.publish T P S).filter (fun d => d.1 == c)).length =
      if c ∈ subsOf b T ∧ c ∈ b.clients then 1 else 0)
    ∧ (∀ d ∈ b.publish T P S, d.1 ∈ subsOf b T ∧
        d.2 = deliveryJson T P S ++ "\n") := by
  cases hf : subsFind b.subscriptions T with
  | none =>
    constructor
    · simp [Broker.publish, hf, subsOf]
    · intro d hd
      simp [Broker.publish, hf] at hd
  | some ids =>
    have hids : subsOf b T = ids := by simp [subsOf, hf]
    constructor
    · rw [hids] at h ⊢
      simpa [Broker.publish, hf] using
        fanout_count ids b.clients (deliveryJson T P S ++ "\n") c h
    · intro d hd
      simp only [Broker.publish, hf, List.mem_map, List.mem_filter] at hd
      obtain ⟨x, ⟨hx, _⟩, rfl⟩ := hd
      exact ⟨hids ▸ hx, rfl⟩

/-- C1 witness: on a concrete broker where the publisher is self-subscribed,
the publisher receives exactly one copy and an unregistered session none. -/
theorem mafia_c1_witness :
    ((Broker.publish bW1 "mafia" "hello" "client_1").filter
        (fun d => d.1 == "client_1")).length = 1
    ∧ ((Broker.publish bW1 "mafia" "hello" "client_1").filter
        (fun d => d.1 == "client_9")).length = 0 := by
  constructor
  · have h := (mafia_c1 bW1 "mafia" "hello" "client_1" "client_1" (by decide)).1
    rw [if_pos (by decide)] at h
    exact h
  · have h := (mafia_c1 bW1 "mafia" "hello" "client_1" "client_9" (by decide)).1
    rw [if_neg (by decide)] at h
    exact h

/-! ### C5: a malformed envelope terminates only that session -/

/-- C5 (confirmed). A chunk `json.loads` cannot decode ends only that
session's read loop (the broker itself, being the catching side, does not
crash): nothing is delivered, the disconnect cleanup runs — the session id
is gone from the client table and from every topic's registry entry — while
every other session keeps its connection and all its subscriptions. -/
theorem mafia_c5 (b : Broker) (cid data : String) (h : jsonLoads data = none) :
    (b.handleData cid data).2.2 = false
    ∧ (b.handleData cid data).2.1 = []
    ∧ cid ∉ (b.handleData cid data).1.clients
    ∧ (∀ e ∈ (b.handleData cid data).1.subscriptions, cid ∉ e.2)
    ∧ (∀ c, c ≠ cid → ((c ∈ (b.handleData cid data).1.clients) ↔ c ∈ b.clients))
    ∧ (b.handleData cid data).1.subscriptions.map Prod.fst =
        b.subscriptions.map Prod.fst
    ∧ (∀ c t, c ≠ cid → ((c ∈ subsOf (b.handleData cid data).1 t) ↔
        c ∈ subsOf b t)) := by
  have hd : b.handleData cid data = (b.onDisconnect cid, [], false) := by
    simp [Broker.handleData, h]
  rw [hd]
  refine ⟨rfl, rfl, ?_, ?_, ?_, ?_, ?_⟩
  · intro hmem
    rw [Broker.onDisconnect] at hmem
    rw [List.mem_filter] at hmem
    have hb := hmem.2
    simp at hb
  · intro e he
    simp only [Broker.onDisconnect, List.mem_map] at he
    obtain ⟨x, _, rfl⟩ := he
    intro hmem
    rw [List.mem_filter] at hmem
    have hb := hmem.2
    simp at hb
  · intro c hc
    simp [Broker.onDisconnect, List.mem_filter, hc]
  · simp [Broker.onDisconnect]
  · intro c t hc
    have := subsFind_map_snd b.subscriptions
      (fun ids => ids.filter (fun x => !(x == cid))) t
    simp only [Broker.onDisconnect, subsOf, this]
    cases subsFind b.subscriptions t with
    | none => simp
    | some ids =>
      simp [List.mem_filter, hc]

/-- C5 witness: a concrete malformed chunk from `client_2` drops only
`client_2`; `client_1` stays connected and subscribed. -/
theorem mafia_c5_witness :
    (Broker.handleData bW5 "client_2" "oops").2.2 = false
    ∧ "client_2" ∉ (Broker.handleData bW5 "client_2" "oops").1.clients
    ∧ "client_1" ∈ (Broker.handleData bW5 "client_2" "oops").1.clients
    ∧ "client_1" ∈ subsOf (Broker.handleData bW5 "client_2" "oops").1 "mafia" := by
  have h := mafia_c5 bW5 "client_2" "oops" (by decide)
  exact ⟨h.1, h.2.2.1,
    (h.2.2.2.2.1 "client_1" (by decide)).mpr (by decide),
    (h.2.2.2.2.2.2 "client_1" "mafia" (by decide)).mpr (by decide)⟩

/-! ### C4: wire framing (code_bug evidence) -/

set_option maxRecDepth 40000 in
/-- C4 (code_bug evidence). The transport client's publish and subscribe
writes carry no trailing newline, and the broker's read side decodes a whole
read chunk as a single JSON document: one envelope per chunk decodes, but
two publishes coalesced into one read — or a split prefix of one publish —
fail to decode entirely, the opposite of the claimed explicit framing. -/
theorem mafia_c4_no_framing :
    jsonLoads (clientPublishMessage "mafia" (tapPayloadJson 1 2)) =
      some [("type", "publish"), ("topic", "mafia"),
            ("payload", tapPayloadJson 1 2)]
    ∧ jsonLoads (clientPublishMessage "mafia" (tapPayloadJson 1 2) ++
        clientPublishMessage "mafia" (tapPayloadJson 3 1)) = none
    ∧ jsonLoads (String.mk
        ((clientPublishMessage "mafia" (tapPayloadJson 1 2)).toList.take 30)) = none
    ∧ (clientPublishMessage "mafia" (tapPayloadJson 1 2)).toList.getLast?
        ≠ some newlineChar
    ∧ (clientSubscribeMessage "mafia").toList.getLast? ≠ some newlineChar
    ∧ jsonLoads (clientSubscribeMessage "mafia") =
        some [("type", "subscribe"), ("topic", "mafia")] := by
  refine ⟨by decide, by decide, by decide, by decide, by decide, by decide⟩

/-! ### C6: a write failure aborts the rest of the fan-out (code_bug evidence) -/

/-- C6 (code_bug evidence). On a concrete broker whose topic `mafia` has the
live subscribers `client_2` then `client_3`: with no failure both receive
their copy; when the write to `client_2` raises, the exception escapes the
fan-out loop, so `client_3` — a remaining live subscriber — receives
nothing; when the write to `client_3` raises, only the earlier `client_2`
was served.  The claim requires the remaining subscribers to still be
served. -/
theorem mafia_c6_aborted_fanout :
    Broker.publishFail bC6 "mafia" "boo" "client_1" ["client_2"] = ([], true)
    ∧ Broker.publishFail bC6 "mafia" "boo" "client_1" [] =
        ([("client_2", deliveryJson "mafia" "boo" "client_1" ++ "\n"),
          ("client_3", deliveryJson "mafia" "boo" "client_1" ++ "\n")], false)
    ∧ Broker.publishFail bC6 "mafia" "boo" "client_1" ["client_3"] =
        ([("client_2", deliveryJson "mafia" "boo" "client_1" ++ "\n")], true) := by
  refine ⟨by decide, by decide, by decide⟩

/-! ### Phase-trace lemmas -/

theorem phaseWrites_append (l1 l2 : List Ev) :
    phaseWrites (l1 ++ l2) = phaseWrites l1 ++ phaseWrites l2 :=
  List.filterMap_append l1 l2 evPhase

theorem phaseWrites_map_out (l : List String) :
    phaseWrites (l.map Ev.out) = [] := by
  simp [phaseWrites, List.filterMap_map, evPhase, Function.comp]

theorem phaseWrites_tapsToAllAlive (ps : List Player) (n : Nat) :
    phaseWrites (tapsToAllAlive ps n) = [] := by
  simp [phaseWrites, tapsToAllAlive, List.filterMap_map, evPhase, Function.comp]

theorem phaseWrites_tapsToRole (ps : List Player) (r : Role) (n : Nat) :
    phaseWrites (tapsToRole ps r n) = [] := by
  simp [phaseWrites, tapsToRole, List.filterMap_map, evPhase, Function.comp]

theorem isRoleAlive_setPhase (s : GameState) (p : Phase) (r : Role) :
    isRoleAlive { s with phase := p } r = isRoleAlive s r := rfl

theorem phaseWrites_nil : phaseWrites [] = [] := rfl

theorem phaseWrites_cons_out (m : String) (l : List Ev) :
    phaseWrites (Ev.out m :: l) = phaseWrites l := rfl

theorem phaseWrites_cons_cue (k : String) (l : List Ev) :
    phaseWrites (Ev.cue k :: l) = phaseWrites l := rfl

theorem phaseWrites_cons_tap (pid n : Nat) (l : List Ev) :
    phaseWrites (Ev.tap pid n :: l) = phaseWrites l := rfl

theorem phaseWrites_cons_phaseSet (p : Phase) (l : List Ev) :
    phaseWrites (Ev.phaseSet p :: l) = p :: phaseWrites l := rfl

theorem phaseWrites_ite_nil (c : Prop) [Decidable c] (l1 l2 : List Ev)
    (h1 : phaseWrites l1 = []) (h2 : phaseWrites l2 = []) :
    phaseWrites (if c then l1 else l2) = [] := by
  split <;> assumption

theorem phaseWrites_wakeEveryone (s : GameState) :
    phaseWrites (wakeEveryone s).2 = [Phase.DAY] := by
  simp only [wakeEveryone, List.cons_append, List.nil_append,
    phaseWrites_cons_phaseSet, phaseWrites_cons_out, phaseWrites_cons_cue,
    phaseWrites_tapsToAllAlive]

theorem phaseWrites_endNight (s : GameState) :
    phaseWrites (endNight s).2 = [Phase.DAY] := by
  have hdet : phaseWrites (if isRoleAlive s Role.DETECTIVE then
      [Ev.out ("Detective goes to sleep."), Ev.cue ("sleep"),
       Ev.cue ("detective")] else []) = [] :=
    phaseWrites_ite_nil _ _ _ rfl rfl
  unfold endNight
  cases hk : s.pending_kill_id with
  | none =>
    simp only [phaseWrites_append, hdet, phaseWrites_nil,
      phaseWrites_wakeEveryone, phaseWrites_map_out, List.nil_append,
      List.append_nil]
  | some k =>
    cases hv : getPlayer s k with
    | none =>
      simp [hv, phaseWrites_append, hdet, phaseWrites_nil,
        phaseWrites_wakeEveryone, phaseWrites_map_out]
    | some v =>
      by_cases ha : v.alive
      · by_cases hs : s.pending_save_id = some k
        · simp [hv, ha, hk, hs, phaseWrites_append, hdet, phaseWrites_nil,
            phaseWrites_wakeEveryone, phaseWrites_map_out,
            phaseWrites_cons_out, phaseWrites_cons_cue]
        · simp [hv, ha, hk, hs, phaseWrites_append, hdet, phaseWrites_nil,
            phaseWrites_wakeEveryone, phaseWrites_map_out,
            phaseWrites_cons_out, phaseWrites_cons_cue, phaseWrites_cons_tap]
      · simp [hv, ha, phaseWrites_append, hdet, phaseWrites_nil,
          phaseWrites_wakeEveryone, phaseWrites_map_out]

theorem phaseWrites_sleepAndWakeDetective (s : GameState) :
    phaseWrites (sleepAndWakeDetective s).2 =
      Phase.NIGHT_DETECTIVE ::
        (if isRoleAlive s Role.DETECTIVE then [] else [Phase.DAY]) := by
  have hdoc : phaseWrites (if isRoleAlive s Role.DOCTOR then
      [Ev.out ("Doctor goes to sleep."), Ev.cue ("sleep"), Ev.cue ("doctor")]
      else []) = [] :=
    phaseWrites_ite_nil _ _ _ rfl rfl
  unfold sleepAndWakeDetective
  by_cases hdet : isRoleAlive s Role.DETECTIVE
  · simp [isRoleAlive_setPhase, hdet, hdoc, phaseWrites_append,
      phaseWrites_cons_phaseSet, phaseWrites_cons_out, phaseWrites_cons_cue,
      phaseWrites_tapsToRole]
  · simp [isRoleAlive_setPhase, hdet, hdoc, phaseWrites_append,
      phaseWrites_cons_phaseSet, phaseWrites_cons_out, phaseWrites_endNight]

theorem phaseWrites_sleepAndWakeDoctor (s : GameState) :
    phaseWrites (sleepAndWakeDoctor s).2 =
      Phase.NIGHT_DOCTOR ::
        (if isRoleAlive s Role.DOCTOR then []
         else Phase.NIGHT_DETECTIVE ::
           (if isRoleAlive s Role.DETECTIVE then [] else [Phase.DAY])) := by
  have hmaf : phaseWrites (if isRoleAlive s Role.MAFIA then
      [Ev.out ("Mafia goes to sleep"), Ev.cue ("sleep"), Ev.cue ("mafia")]
      else []) = [] :=
    phaseWrites_ite_nil _ _ _ rfl rfl
  unfold sleepAndWakeDoctor
  by_cases hdoc : isRoleAlive s Role.DOCTOR
  · simp [isRoleAlive_setPhase, hdoc, hmaf, phaseWrites_append,
      phaseWrites_cons_phaseSet, phaseWrites_cons_out, phaseWrites_cons_cue,
      phaseWrites_tapsToRole, phaseWrites_nil]
  · have hdet := phaseWrites_sleepAndWakeDetective
      { s with phase := Phase.NIGHT_DOCTOR }
    rw [isRoleAlive_setPhase] at hdet
    simp [isRoleAlive_setPhase, hdoc, hmaf, phaseWrites_append,
      phaseWrites_cons_phaseSet, phaseWrites_cons_out, hdet]

theorem phaseWrites_wakeMafia (s : GameState) :
    phaseWrites (wakeMafia s).2 = [Phase.NIGHT_MAFIA] := by
  simp only [wakeMafia, List.cons_append, List.nil_append,
    phaseWrites_cons_phaseSet, phaseWrites_cons_out, phaseWrites_cons_cue,
    phaseWrites_tapsToRole]

theorem phaseWrites_startNight (s : GameState) :
    phaseWrites (startNight s).2 = [Phase.NIGHT_MAFIA] := by
  simp only [startNight, phaseWrites_append, phaseWrites_cons_out,
    phaseWrites_cons_cue, phaseWrites_tapsToAllAlive, phaseWrites_wakeMafia,
    List.cons_append, List.nil_append]

/-- Every phase assignment performed by `next_phase` — dead-role cascades
included — steps along the strict cycle from the current phase. -/
theorem chainFrom_nextPhase (s : GameState) :
    chainFrom s.phase (phaseWrites (nextPhase s).2) = true := by
  cases hp : s.phase with
  | DAY =>
    simp [nextPhase, hp, phaseWrites_startNight, chainFrom, cycleNext]
  | NIGHT_MAFIA =>
    rw [nextPhase, hp, phaseWrites_sleepAndWakeDoctor]
    by_cases hdoc : isRoleAlive s Role.DOCTOR
    · simp [hdoc, chainFrom, cycleNext]
    · by_cases hdet : isRoleAlive s Role.DETECTIVE
      · simp [hdoc, hdet, chainFrom, cycleNext]
      · simp [hdoc, hdet, chainFrom, cycleNext]
  | NIGHT_DOCTOR =>
    rw [nextPhase, hp, phaseWrites_sleepAndWakeDetective]
    by_cases hdet : isRoleAlive s Role.DETECTIVE
    · simp [hdet, chainFrom, cycleNext]
    · simp [hdet, chainFrom, cycleNext]
  | NIGHT_DETECTIVE =>
    simp [nextPhase, hp, phaseWrites_endNight, chainFrom, cycleNext]

theorem phaseWrites_lynch (s : GameState) (target : Player) :
    phaseWrites (lynch s target).2 = [] := by
  unfold lynch
  by_cases hr : target.role == Role.MAFIA
  · simp [hr, phaseWrites_append, phaseWrites_cons_out, phaseWrites_cons_cue,
      phaseWrites_map_out, phaseWrites_nil]
  · simp [hr, phaseWrites_append, phaseWrites_cons_out, phaseWrites_cons_cue,
      phaseWrites_map_out, phaseWrites_nil]

/-! ### C3: phase assignments (corrected) -/

/-- C3 (amended, proved). Every assignment to the phase field performed by
`next_phase` — including the dead-role cascades and the auto-advance inside
`kill_player`, `save_player` and `check_player` — follows the strict cycle
DAY → NIGHT_MAFIA → NIGHT_DOCTOR → NIGHT_DETECTIVE → DAY from the current
phase, never skipping a phase in the written sequence.  (The original
claim, quantified over all operator commands, fails: `reset` and `switch`
assign DAY directly from any phase; see the counterexample.) -/
theorem mafia_c3 (s : GameState) (pid : Nat) :
    chainFrom s.phase (phaseWrites (nextPhase s).2) = true
    ∧ chainFrom s.phase (phaseWrites (killPlayer s pid).2) = true
    ∧ chainFrom s.phase (phaseWrites (savePlayer s pid).2) = true
    ∧ chainFrom s.phase (phaseWrites (checkPlayer s pid).2) = true := by
  refine ⟨chainFrom_nextPhase s, ?_, ?_, ?_⟩
  · unfold killPlayer
    cases hg : getAlivePlayer s pid with
    | none => simp [phaseWrites_cons_out, phaseWrites_nil, chainFrom]
    | some target =>
      dsimp only
      by_cases hday : s.phase = Phase.DAY
      · simp [hday, phaseWrites_lynch, chainFrom]
      · by_cases hmaf : s.phase = Phase.NIGHT_MAFIA
        · rw [if_neg hday, if_pos hmaf]
          simp only [phaseWrites_append, phaseWrites_cons_out,
            phaseWrites_tapsToRole, phaseWrites_nil, List.nil_append,
            List.append_nil, List.cons_append]
          exact chainFrom_nextPhase { s with pending_kill_id := some pid }
        · simp [hday, hmaf, phaseWrites_nil, chainFrom]
  · unfold savePlayer
    by_cases hnd : s.phase = Phase.NIGHT_DOCTOR
    · rw [if_neg (fun hh => hh hnd)]
      cases hg : getAlivePlayer s pid with
      | none => simp [phaseWrites_cons_out, phaseWrites_nil, chainFrom]
      | some target =>
        dsimp only
        simp only [phaseWrites_append, phaseWrites_cons_out,
          phaseWrites_tapsToRole, phaseWrites_nil, List.nil_append,
          List.append_nil, List.cons_append]
        exact chainFrom_nextPhase { s with pending_save_id := some pid }
    · rw [if_pos hnd]
      simp [phaseWrites_cons_out, phaseWrites_nil, chainFrom]
  · unfold checkPlayer
    by_cases hnd : s.phase = Phase.NIGHT_DETECTIVE
    · rw [if_neg (fun hh => hh hnd)]
      cases hg : getAlivePlayer s pid with
      | none => simp [phaseWrites_cons_out, phaseWrites_nil, chainFrom]
      | some target =>
        dsimp only
        simp only [phaseWrites_append, phaseWrites_cons_cue,
          phaseWrites_cons_out, phaseWrites_tapsToRole, phaseWrites_nil,
          List.nil_append, List.append_nil, List.cons_append]
        exact chainFrom_nextPhase s
    · rw [if_pos hnd]
      simp [phaseWrites_cons_out, phaseWrites_nil, chainFrom]

/-- C3 counterexample. From the reachable state after start-up
initialization and one `next` command (phase NIGHT_MAFIA), the operator
command `reset` performs the phase assignment DAY — skipping NIGHT_DOCTOR
and NIGHT_DETECTIVE — so the claim quantified over every operator command
is false. -/
theorem mafia_c3_counterexample :
    gsNight = (handleCommand baseRoles gsInit Cmd.next).1
    ∧ gsNight.phase = Phase.NIGHT_MAFIA
    ∧ phaseWrites (handleCommand baseRoles gsNight Cmd.reset).2.1 = [Phase.DAY]
    ∧ chainFrom gsNight.phase
        (phaseWrites (handleCommand baseRoles gsNight Cmd.reset).2.1) = false := by
  refine ⟨rfl, by decide, by decide, by decide⟩

/-! ### C2: night resolution -/

/-- Marking the found player dead changes exactly that entry as seen by a
later lookup. -/
theorem getPlayer_killVictim (players : List Player) (k : Nat) (v : Player)
    (h : players.find? (fun p => p.id == k) = some v) :
    (killVictim players k).find? (fun p => p.id == k) =
      some { v with alive := false } := by
  induction players with
  | nil => simp at h
  | cons a t ih =>
    unfold killVictim
    rw [List.map_cons]
    cases ha : (a.id == k) with
    | true =>
      simp only [List.find?_cons, ha] at h
      have hav : a = v := by injection h
      subst hav
      simp [List.find?_cons, ha]
    | false =>
      simp only [List.find?_cons, ha] at h
      have := ih h
      unfold killVictim at this
      rw [if_neg (by simp [ha])]
      simp only [List.find?_cons, ha]
      exact this

/-- C2 (confirmed). When night resolution runs: both pending fields come out
cleared and the phase becomes DAY; with no pending kill no player dies (the
player table is untouched); with a pending kill on a living target, a
matching pending save leaves the target alive and fires the "protection"
cue, while a differing (or unset) pending save marks the target dead and
fires the "lynch" and "everyone" cues and the one-tap death tap. -/
theorem mafia_c2 (s : GameState) :
    ((endNight s).1.pending_kill_id = none
      ∧ (endNight s).1.pending_save_id = none
      ∧ (endNight s).1.phase = Phase.DAY)
    ∧ (s.pending_kill_id = none → (endNight s).1.players = s.players)
    ∧ (∀ k v, s.pending_kill_id = some k → getPlayer s k = some v →
        v.alive = true →
        ((s.pending_save_id = some k →
            (endNight s).1.players = s.players
            ∧ Ev.cue ("protection") ∈ (endNight s).2)
         ∧ (s.pending_save_id ≠ some k →
            getPlayer (endNight s).1 k = some { v with alive := false }
            ∧ Ev.cue ("lynch") ∈ (endNight s).2
            ∧ Ev.cue ("everyone") ∈ (endNight s).2
            ∧ Ev.tap v.id 1 ∈ (endNight s).2))) := by
  refine ⟨⟨rfl, rfl, rfl⟩, ?_, ?_⟩
  · intro h
    simp [endNight, wakeEveryone, h]
  · intro k v hk hv halive
    constructor
    · intro hsave
      constructor
      · simp [endNight, wakeEveryone, hk, hv, halive, hsave]
      · simp [endNight, wakeEveryone, hk, hv, halive, hsave]
    · intro hsave
      have hkill : (endNight s).1.players = killVictim s.players k := by
        simp [endNight, wakeEveryone, hk, hv, halive, hsave]
      refine ⟨?_, ?_, ?_, ?_⟩
      · rw [show getPlayer (endNight s).1 k =
            (killVictim s.players k).find? (fun p => p.id == k) by
          rw [getPlayer, hkill]]
        exact getPlayer_killVictim s.players k v hv
      · simp [endNight, wakeEveryone, hk, hv, halive, hsave]
      · simp [endNight, wakeEveryone, hk, hv, halive, hsave]
      · simp [endNight, wakeEveryone, hk, hv, halive, hsave]

/-- C2 witness: concrete resolutions — target 2 saved when the save matched,
target 4 killed (with its death tap) when the save differed. -/
theorem mafia_c2_witness :
    ((endNight sC2save).1.players = sC2save.players
      ∧ Ev.cue ("protection") ∈ (endNight sC2save).2
      ∧ (endNight sC2save).1.phase = Phase.DAY)
    ∧ (getPlayer (endNight sC2kill).1 4 =
        some { id := 4, role := Role.TOWNFOLK, alive := false }
      ∧ Ev.tap 4 1 ∈ (endNight sC2kill).2) := by
  have hsave := mafia_c2 sC2save
  have hkill := mafia_c2 sC2kill
  have h1 := (hsave.2.2 2 { id := 2, role := Role.DOCTOR, alive := true }
    rfl rfl rfl).1 rfl
  have h2 := (hkill.2.2 4 { id := 4, role := Role.TOWNFOLK, alive := true }
    rfl rfl rfl).2 (by decide)
  exact ⟨⟨h1.1, h1.2, hsave.1.2.2⟩, ⟨h2.1, h2.2.2.2⟩⟩

/-! ### C7: wrong-phase actions (corrected) -/

/-- C7 counterexample. During NIGHT_DOCTOR, `kill 1` on a valid living
target returns with no diagnostic at all (the state is unchanged, but the
claimed diagnostic is absent), so the claim as stated is false. -/
theorem mafia_c7_counterexample :
    sC7.phase = Phase.NIGHT_DOCTOR
    ∧ (getAlivePlayer sC7 1).isSome = true
    ∧ killPlayer sC7 1 = (sC7, []) := by
  refine ⟨rfl, rfl, by decide⟩

/-- C7 (amended, proved). `save` outside NIGHT_DOCTOR and `check` outside
NIGHT_DETECTIVE are rejected with a diagnostic and leave the state
unchanged; `kill` outside DAY and NIGHT_MAFIA also leaves the state
unchanged, but prints a diagnostic only when the target is invalid or dead —
for a valid living target it is a silent no-op. -/
theorem mafia_c7 (s : GameState) (pid : Nat) :
    (s.phase ≠ Phase.NIGHT_DOCTOR →
      savePlayer s pid = (s, [Ev.out ("Saves can only happen during doctors turn!")]))
    ∧ (s.phase ≠ Phase.NIGHT_DETECTIVE →
      checkPlayer s pid = (s, [Ev.out ("Checks can only happen during detectives turn!")]))
    ∧ (s.phase ≠ Phase.DAY → s.phase ≠ Phase.NIGHT_MAFIA →
      (killPlayer s pid).1 = s
      ∧ (killPlayer s pid).2 = (if (getAlivePlayer s pid).isSome then []
          else [Ev.out ("Player " ++ toString pid ++ " is not a valid target.")])) := by
  refine ⟨?_, ?_, ?_⟩
  · intro h
    rw [savePlayer, if_pos h]
  · intro h
    rw [checkPlayer, if_pos h]
  · intro hday hmaf
    unfold killPlayer
    cases hg : getAlivePlayer s pid with
    | none => simp [hg]
    | some target =>
      dsimp only
      rw [if_neg hday, if_neg hmaf]
      simp [hg]

/-- C7 witness: at DAY, `save` and `check` are rejected with their
diagnostics and no mutation; at NIGHT_DOCTOR, `kill` of a living player is
a silent no-op. -/
theorem mafia_c7_witness :
    savePlayer gsInit 1 =
      (gsInit, [Ev.out ("Saves can only happen during doctors turn!")])
    ∧ checkPlayer gsInit 1 =
      (gsInit, [Ev.out ("Checks can only happen during detectives turn!")])
    ∧ (killPlayer sC7 1).1 = sC7 ∧ (killPlayer sC7 1).2 = [] := by
  have h1 := (mafia_c7 gsInit 1).1 (by decide)
  have h2 := (mafia_c7 gsInit 1).2.1 (by decide)
  have h3 := (mafia_c7 sC7 1).2.2 (by decide) (by decide)
  refine ⟨h1, h2, h3.1, ?_⟩
  rw [h3.2, if_pos (by decide)]

/-! ### C8: reset yields a fresh bijective assignment -/

/-- A shuffled role list is the base multiset in some order, hence has
exactly four entries. -/
theorem roles_shape (roles : List Role) (h : roles.Perm baseRoles) :
    ∃ a b c d, roles = [a, b, c, d] := by
  have hl := h.length_eq
  simp [baseRoles] at hl
  match roles, hl with
  | [a, b, c, d], _ => exact ⟨a, b, c, d, rfl⟩

/-- What `_initialize_players` guarantees for any shuffled order of the four
base roles, from any prior state. -/
theorem initializePlayers_spec (roles : List Role) (s : GameState)
    (h : roles.Perm baseRoles) :
    (initializePlayers roles s).1.players.map Player.id = [1, 2, 3, 4]
    ∧ (∀ p ∈ (initializePlayers roles s).1.players, p.alive = true)
    ∧ ((initializePlayers roles s).1.players.map Player.role) = roles
    ∧ (initializePlayers roles s).1.pending_kill_id = none
    ∧ (initializePlayers roles s).1.pending_save_id = none
    ∧ (initializePlayers roles s).1.phase = Phase.DAY := by
  obtain ⟨a, b, c, d, rfl⟩ := roles_shape roles h
  refine ⟨rfl, ?_, rfl, rfl, rfl, rfl⟩
  intro p hp
  have hpl : (initializePlayers [a, b, c, d] s).1.players =
      [{ id := 1, role := a, alive := true }, { id := 2, role := b, alive := true },
       { id := 3, role := c, alive := true }, { id := 4, role := d, alive := true }] := rfl
  rw [hpl] at hp
  simp only [List.mem_cons, List.not_mem_nil, or_false] at hp
  rcases hp with rfl | rfl | rfl | rfl <;> rfl

/-- `distribute_roles` with the manager enabled sends each player exactly
its role's tap code. -/
theorem distributeRoles_true (ps : List Player) :
    distributeRoles true ps = ps.map (fun p => (p.id, ROLE_TAPS p.role)) := by
  induction ps with
  | nil => rfl
  | cons a t ih =>
    show (List.map (fun p => tapSend true p.id (ROLE_TAPS p.role)) (a :: t)).flatten = _
    rw [List.map_cons, List.flatten_cons]
    have hfold : (List.map (fun p => tapSend true p.id (ROLE_TAPS p.role)) t).flatten =
        distributeRoles true t := rfl
    rw [hfold, ih]
    rfl

/-- C8 (confirmed). `reset_game`, legal from any prior state and mode, always
produces players 1..4, all alive, whose role assignment is a permutation of
the four fixed roles onto the four ids (a bijection), with both pending
fields cleared and the phase back at DAY. -/
theorem mafia_c8 (roles : List Role) (m : ModeState) (s : GameState)
    (h : roles.Perm baseRoles) :
    (resetGame roles m s).2.1.players.map Player.id = [1, 2, 3, 4]
    ∧ (∀ p ∈ (resetGame roles m s).2.1.players, p.alive = true)
    ∧ ((resetGame roles m s).2.1.players.map Player.role).Perm baseRoles
    ∧ (resetGame roles m s).2.1.pending_kill_id = none
    ∧ (resetGame roles m s).2.1.pending_save_id = none
    ∧ (resetGame roles m s).2.1.phase = Phase.DAY := by
  have hspec := initializePlayers_spec roles s h
  exact ⟨hspec.1, hspec.2.1, by rw [show (resetGame roles m s).2.1.players.map
      Player.role = roles from hspec.2.2.1]; exact h,
    hspec.2.2.2.1, hspec.2.2.2.2.1, hspec.2.2.2.2.2⟩

/-- C8 witness: a concrete shuffle from a mid-game state yields the full
bijection, everyone alive, and DAY. -/
theorem mafia_c8_witness :
    ((resetGame wRoles wMode sC2kill).2.1.players.map Player.role).Perm baseRoles
    ∧ (resetGame wRoles wMode sC2kill).2.1.phase = Phase.DAY
    ∧ (resetGame wRoles wMode sC2kill).2.1.players.map Player.id = [1, 2, 3, 4] := by
  have h := mafia_c8 wRoles wMode sC2kill (by decide)
  exact ⟨h.2.2.1, h.2.2.2.2.2, h.1⟩

/-! ### C9: win evaluation -/

/-- C9 (confirmed). With M the count of alive Mafia and T the count of alive
non-Mafia: the Town announcement appears exactly when M = 0, the Mafia
announcement exactly when M > 0 and M ≥ T, and nothing otherwise.  Win
evaluation is an observer — it returns only console output, never touching
the state — and the command loop's continue flag stays `true` for every
command except `quit`, so an announcement never halts input processing. -/
theorem mafia_c9 (s : GameState) :
    (checkWinCondition s = ["TOWN WINS! All mafia have been eliminated!"] ↔
      (s.players.filter (fun p => p.alive && p.role == Role.MAFIA)).length = 0)
    ∧ (checkWinCondition s = ["MAFIA WINS! They have taken over the town!"] ↔
      ((s.players.filter (fun p => p.alive && p.role == Role.MAFIA)).length ≠ 0
       ∧ (s.players.filter (fun p => p.alive && p.role == Role.MAFIA)).length ≥
         (s.players.filter (fun p => p.alive && !(p.role == Role.MAFIA))).length))
    ∧ (checkWinCondition s = [] ↔
      ((s.players.filter (fun p => p.alive && p.role == Role.MAFIA)).length ≠ 0
       ∧ (s.players.filter (fun p => p.alive && p.role == Role.MAFIA)).length <
         (s.players.filter (fun p => p.alive && !(p.role == Role.MAFIA))).length))
    ∧ (∀ (roles : List Role) (c : Cmd), c ≠ Cmd.quit →
        (handleCommand roles s c).2.2 = true) := by
  have hts : ("TOWN WINS! All mafia have been eliminated!" : String) ≠
      "MAFIA WINS! They have taken over the town!" := by decide
  refine ⟨?_, ?_, ?_, ?_⟩
  · unfold checkWinCondition
    dsimp only
    split_ifs with h1 h2
    · simp [h1]
    · simp [h1, hts.symm]
    · simp [h1]
  · unfold checkWinCondition
    dsimp only
    split_ifs with h1 h2
    · simp [h1, hts]
    · simp [h1, h2]
    · simp [h1, h2]
  · unfold checkWinCondition
    dsimp only
    split_ifs with h1 h2
    · simp [h1]
    · constructor
      · intro hh
        exact absurd hh (by simp)
      · intro hh
        exact absurd hh.2 (by omega)
    · constructor
      · intro _
        exact ⟨h1, by omega⟩
      · intro _
        rfl
  · intro roles c hc
    cases c with
    | quit => exact absurd rfl hc
    | repeatRoles o =>
      cases o with
      | none => rfl
      | some pid => cases hg : getPlayer s pid <;> simp [handleCommand, hg]
    | next => rfl
    | kill pid => rfl
    | save pid => rfl
    | check pid => rfl
    | reset => rfl
    | switchMode mode => rfl
    | unknown w => rfl

/-- C9 witness: a state with no alive mafia announces the Town win, and a
`next` command keeps the loop running. -/
theorem mafia_c9_witness :
    checkWinCondition gsEmpty = ["TOWN WINS! All mafia have been eliminated!"]
    ∧ (handleCommand baseRoles gsEmpty Cmd.next).2.2 = true := by
  have h := mafia_c9 gsEmpty
  exact ⟨h.1.mpr rfl, h.2.2.2 baseRoles Cmd.next (by decide)⟩

/-! ### C10: switch_mode with an unrecognized mode -/

/-- C10 (confirmed). For any mode string outside taps/sounds/all,
`switch_mode` changes none of the four output flags, yet still performs the
full reset: fresh players 1..4 all alive with the roles re-dealt as a
bijection, pending actions cleared, phase DAY, and the role tap codes
redistributed to every player (the tap channel being forced on for the
distribution and restored afterwards). -/
theorem mafia_c10 (roles : List Role) (mode : String) (m : ModeState)
    (s : GameState) (h1 : mode ≠ "taps") (h2 : mode ≠ "sounds")
    (h3 : mode ≠ "all") (h : roles.Perm baseRoles) :
    (switchMode roles mode m s).1 = m
    ∧ (switchMode roles mode m s).2.1.players.map Player.id = [1, 2, 3, 4]
    ∧ (∀ p ∈ (switchMode roles mode m s).2.1.players, p.alive = true)
    ∧ ((switchMode roles mode m s).2.1.players.map Player.role).Perm baseRoles
    ∧ (switchMode roles mode m s).2.1.pending_kill_id = none
    ∧ (switchMode roles mode m s).2.1.pending_save_id = none
    ∧ (switchMode roles mode m s).2.1.phase = Phase.DAY
    ∧ (switchMode roles mode m s).2.2 =
        (switchMode roles mode m s).2.1.players.map
          (fun p => (p.id, ROLE_TAPS p.role)) := by
  have hsw : switchMode roles mode m s = resetGame roles m s := by
    unfold switchMode
    rw [if_neg h1, if_neg h2, if_neg h3]
  rw [hsw]
  have hspec := initializePlayers_spec roles s h
  refine ⟨rfl, hspec.1, hspec.2.1, ?_, hspec.2.2.2.1, hspec.2.2.2.2.1,
    hspec.2.2.2.2.2, ?_⟩
  · rw [show (resetGame roles m s).2.1.players.map Player.role = roles from
      hspec.2.2.1]
    exact h
  · exact distributeRoles_true (resetGame roles m s).2.1.players

/-- C10 witness: the unknown mode string `"bogus"` leaves the taps-only
flags untouched while the game is fully re-dealt and the role taps are
re-sent. -/
theorem mafia_c10_witness :
    (switchMode wRoles "bogus" wMode sC2kill).1 = wMode
    ∧ (switchMode wRoles "bogus" wMode sC2kill).2.1.phase = Phase.DAY
    ∧ ((switchMode wRoles "bogus" wMode sC2kill).2.1.players.map
        Player.role).Perm baseRoles
    ∧ (switchMode wRoles "bogus" wMode sC2kill).2.2 =
        [(1, 3), (2, 2), (3, 1), (4, 4)] := by
  have h := mafia_c10 wRoles "bogus" wMode sC2kill (by decide) (by decide)
    (by decide) (by decide)
  refine ⟨h.1, h.2.2.2.2.2.2.1, h.2.2.2.1, ?_⟩
  rw [h.2.2.2.2.2.2.2]
  rfl
